import Mathlib

set_option maxHeartbeats 1000000

/-!
A shallow embedding of the webpki certificate-chain validator
(`src/verify_cert.rs`, `src/der.rs`, `src/webpki.rs`).

Bytes are modelled as `List Nat`, one entry per octet (every entry that can
arise from the Rust code is < 256; the embedding only compares bytes and
does small arithmetic on them, so no wrap-around is involved, and the
single-bit tests of the DER length decoder are written as the equivalent
`< 128` comparisons on octets).  `untrusted::Reader` is modelled in
state-passing style: a decoder takes the remaining bytes and returns the
decoded value together with the bytes left over.  `untrusted`'s `read_all`
is the `read_all` wrapper below.

The crates `ring` (DER tag/length reader) and `untrusted`, and the
repository modules `cert.rs`, `name.rs`, `signed_data.rs` and `time.rs`,
are not among the provided sources.  Definitions for the missing repository
pieces are modelled from the specification and are marked with
`Modelled from the spec:` in their doc comment.  The name-constraint
checker, the signed-data verifier and the certificate field parser are
abstracted as the `Env` record of collaborator functions.
-/

namespace Webpki

/-- A DER-encoded byte string: one `Nat` per octet. -/
abbrev Bytes := List Nat

/-- The error taxonomy of `webpki.rs` (`pub enum Error`). -/
inductive Error where
  | BadDER
  | BadDERTime
  | CAUsedAsEndEntity
  | CertExpired
  | CertNotValidForName
  | CertNotValidYet
  | EndEntityUsedAsCA
  | ExtensionValueInvalid
  | InvalidCertValidity
  | InvalidReferenceName
  | InvalidSignatureForPublicKey
  | NameConstraintViolation
  | PathLenConstraintViolated
  | SignatureAlgorithmMismatch
  | RequiredEKUNotFound
  | UnknownIssuer
  | UnsupportedCertVersion
  | UnsupportedCriticalExtension
  | UnsupportedSignatureAlgorithmForPublicKey
  | UnsupportedSignatureAlgorithm
deriving DecidableEq, Repr

/-- Decidable equality of fallible results, for evaluating the embedding
on concrete inputs. -/
instance {ε α : Type} [DecidableEq ε] [DecidableEq α] : DecidableEq (Except ε α)
  | .ok a, .ok b =>
    if h : a = b then .isTrue (by rw [h]) else .isFalse (by simp [h])
  | .ok _, .error _ => .isFalse (by simp)
  | .error _, .ok _ => .isFalse (by simp)
  | .error e, .error e' =>
    if h : e = e' then .isTrue (by rw [h]) else .isFalse (by simp [h])

/-- `untrusted::Reader::peek`: true when the next byte equals `b`. -/
def peek (b : Nat) (input : Bytes) : Bool :=
  match input with
  | [] => false
  | x :: _ => x == b

/-- `untrusted::Reader::read_byte`, with the error the caller maps it to. -/
def read_byte (e : Error) (input : Bytes) : Except Error (Nat × Bytes) :=
  match input with
  | [] => .error e
  | b :: rest => .ok (b, rest)

/-- `untrusted::Input::read_all`: run the decoder and require that it
consumes the whole input, otherwise return `e` (the incomplete-read error). -/
def read_all {α : Type} (e : Error) (f : Bytes → Except Error (α × Bytes)) (input : Bytes) :
    Except Error α :=
  match f input with
  | .error err => .error err
  | .ok (r, leftover) => if leftover.isEmpty then .ok r else .error e

/-- Reading the value of a tag-length-value once `len` is known: the
`read_bytes` step of the DER reader. -/
def read_value (tag len : Nat) (input : Bytes) : Except Error ((Nat × Bytes) × Bytes) :=
  if len ≤ input.length then .ok ((tag, input.take len), input.drop len) else .error .BadDER

/-- Modelled from the spec: the DER reader collaborator
(`ring::der::read_tag_and_get_value`, re-exported through `der.rs`).
Reads a tag octet (rejecting the high-tag-number form), a short-form or
minimal two- or three-octet long-form length, and the value of that length.
Failures are `BadDER` (the error `der.rs` maps the collaborator error to). -/
def read_tag_and_get_value (input : Bytes) : Except Error ((Nat × Bytes) × Bytes) :=
  match input with
  | [] => .error .BadDER
  | tag :: after_tag =>
    if tag % 32 == 31 then .error .BadDER
    else
      match after_tag with
      | [] => .error .BadDER
      | lb :: after_len =>
        if lb < 128 then read_value tag lb after_len
        else if lb == 129 then
          match after_len with
          | [] => .error .BadDER
          | l2 :: after_l2 =>
            if l2 < 128 then .error .BadDER else read_value tag l2 after_l2
        else if lb == 130 then
          match after_len with
          | l2 :: l3 :: after_l3 =>
            let combined := l2 * 256 + l3
            if combined < 256 then .error .BadDER else read_value tag combined after_l3
          | _ => .error .BadDER
        else .error .BadDER

/-- `der.rs` `expect_tag_and_get_value`: read a TLV and require the tag. -/
def expect_tag_and_get_value (tag : Nat) (input : Bytes) : Except Error (Bytes × Bytes) :=
  match read_tag_and_get_value input with
  | .error e => .error e
  | .ok ((actual_tag, inner), rest) =>
    if actual_tag == tag then .ok (inner, rest) else .error .BadDER

/-- `ring::der::nested` as used by `der.rs`: expect the tag (mapping a
tag/length failure to `e`), run the decoder on the value and require that
the value is fully consumed (else `e`); a decoder error is returned as is. -/
def nested {α : Type} (tag : Nat) (e : Error) (decoder : Bytes → Except Error (α × Bytes))
    (input : Bytes) : Except Error (α × Bytes) :=
  match expect_tag_and_get_value tag input with
  | .error _ => .error e
  | .ok (inner, rest) =>
    match decoder inner with
    | .error err => .error err
    | .ok (r, leftover) => if leftover.isEmpty then .ok (r, rest) else .error e

/-- `der.rs` `optional_boolean`: absent (no Boolean tag next) decodes to
`false`; a present Boolean must be exactly one byte, `0xff` (true) or
`0x00` (false, accepted nonconformantly). -/
def optional_boolean (input : Bytes) : Except Error (Bool × Bytes) :=
  if !(peek 1 input) then .ok (false, input)
  else
    nested 1 .BadDER
      (fun v =>
        match v with
        | 255 :: rest => .ok (true, rest)
        | 0 :: rest => .ok (false, rest)
        | _ => .error .BadDER)
      input

/-- Modelled from the spec: the DER reader collaborator
(`ring::der::small_nonnegative_integer`, wrapped by `der.rs`): an
INTEGER whose value fits one unsigned byte — a single content octet
below `0x80`, or a zero octet followed by one octet at or above `0x80`
(minimal leading-zero form for values with the top bit set). -/
def small_nonnegative_integer (input : Bytes) : Except Error (Nat × Bytes) :=
  match expect_tag_and_get_value 2 input with
  | .error e => .error e
  | .ok (v, rest) =>
    match v with
    | [b] => if b < 128 then .ok (b, rest) else .error .BadDER
    | [0, b] => if 128 ≤ b then .ok (b, rest) else .error .BadDER
    | _ => .error .BadDER

/-- Modelled from the spec: `time::is_leap_year` (time.rs is not among the
provided sources); the Gregorian rule. -/
def is_leap_year (year : Nat) : Bool :=
  (year % 4 == 0 && year % 100 != 0) || year % 400 == 0

/-- Modelled from the spec: `time::days_in_month` (time.rs is not among the
provided sources); month lengths under the Gregorian leap-year rule.
The function is only ever applied to a month in 1..=12. -/
def days_in_month (year month : Nat) : Nat :=
  match month with
  | 1 => 31
  | 2 => if is_leap_year year then 29 else 28
  | 3 => 31
  | 4 => 30
  | 5 => 31
  | 6 => 30
  | 7 => 31
  | 8 => 31
  | 9 => 30
  | 10 => 31
  | 11 => 30
  | 12 => 31
  | _ => 0

/-- Days contributed by the months before `month` in `year` (month in 1..=12). -/
def days_before_month (year month : Nat) : Nat :=
  let base :=
    match month with
    | 1 => 0
    | 2 => 31
    | 3 => 59
    | 4 => 90
    | 5 => 120
    | 6 => 151
    | 7 => 181
    | 8 => 212
    | 9 => 243
    | 10 => 273
    | 11 => 304
    | 12 => 334
    | _ => 0
  if 3 ≤ month && is_leap_year year then base + 1 else base

/-- Leap years in the interval `[0, year)` of the proleptic Gregorian calendar. -/
def leap_years_before (year : Nat) : Nat :=
  (year + 3) / 4 - (year + 99) / 100 + (year + 399) / 400

/-- Days in the years `[0, year)` of the proleptic Gregorian calendar. -/
def days_before_year (year : Nat) : Nat :=
  365 * year + leap_years_before year

/-- Seconds since the fixed epoch (year 0) of the given calendar instant. -/
def utc_seconds (year month day hours minutes seconds : Nat) : Nat :=
  (((days_before_year year + days_before_month year month + (day - 1)) * 24 + hours) * 60
      + minutes) * 60 + seconds

/-- Modelled from the spec: `time::time_from_ymdhms_utc` (time.rs is not
among the provided sources): validates the Gregorian calendar fields and
returns the seconds-since-epoch scalar used as `time::Time`. -/
def time_from_ymdhms_utc (year month day_of_month hours minutes seconds : Nat) :
    Except Error Nat :=
  if month < 1 || month > 12 || day_of_month < 1 || day_of_month > days_in_month year month
      || hours > 23 || minutes > 59 || seconds > 59 then
    .error .BadDERTime
  else
    .ok (utc_seconds year month day_of_month hours minutes seconds)

/-- The inner `read_digit` of `der.rs` `time_choice`: one ASCII decimal. -/
def read_digit (input : Bytes) : Except Error (Nat × Bytes) :=
  match input with
  | [] => .error .BadDERTime
  | b :: rest => if b < 48 || b > 57 then .error .BadDERTime else .ok (b - 48, rest)

/-- The inner `read_two_digits` of `der.rs` `time_choice`: two ASCII
decimals, bounded inclusively by `minv` and `maxv`. -/
def read_two_digits (minv maxv : Nat) (input : Bytes) : Except Error (Nat × Bytes) :=
  match read_digit input with
  | .error e => .error e
  | .ok (hi, input) =>
    match read_digit input with
    | .error e => .error e
    | .ok (lo, input) =>
      let value := hi * 10 + lo
      if value < minv || value > maxv then .error .BadDERTime else .ok (value, input)

/-- `der.rs` `time_choice`: a UTCTime (tag 23) or GeneralizedTime (tag 24)
CHOICE decoded to a `time::Time` scalar.  UTCTime carries a two-digit year
windowed at 50 (50..=99 is 19YY, 0..=49 is 20YY); GeneralizedTime carries a
four-digit year.  Month, day (bounded by `days_in_month`), hours, minutes
and seconds follow, then the mandatory `Z` terminator. -/
def time_choice (input : Bytes) : Except Error (Nat × Bytes) :=
  let is_utc_time := peek 23 input
  let expected_tag := if is_utc_time then 23 else 24
  nested expected_tag .BadDER
    (fun value =>
      match
        (if is_utc_time then
          match read_two_digits 0 99 value with
          | .error e => .error e
          | .ok (lo, v) => .ok (((if 50 ≤ lo then 19 else 20), lo), v)
        else
          match read_two_digits 0 99 value with
          | .error e => .error e
          | .ok (hi, v) =>
            match read_two_digits 0 99 v with
            | .error e => .error e
            | .ok (lo, v) => .ok ((hi, lo), v) : Except Error ((Nat × Nat) × Bytes)) with
      | .error e => .error e
      | .ok ((year_hi, year_lo), v) =>
        let year := year_hi * 100 + year_lo
        match read_two_digits 1 12 v with
        | .error e => .error e
        | .ok (month, v) =>
          let dim := days_in_month year month
          match read_two_digits 1 dim v with
          | .error e => .error e
          | .ok (day_of_month, v) =>
            match read_two_digits 0 23 v with
            | .error e => .error e
            | .ok (hours, v) =>
              match read_two_digits 0 59 v with
              | .error e => .error e
              | .ok (minutes, v) =>
                match read_two_digits 0 59 v with
                | .error e => .error e
                | .ok (seconds, v) =>
                  match read_byte .BadDERTime v with
                  | .error e => .error e
                  | .ok (time_zone, v) =>
                    if time_zone != 90 then .error .BadDERTime
                    else
                      match time_from_ymdhms_utc year month day_of_month hours minutes
                          seconds with
                      | .error e => .error e
                      | .ok t => .ok (t, v))
    input

/-- `verify_cert.rs` `UsedAsCA`. -/
inductive UsedAsCA where
  | Yes
  | No
deriving DecidableEq, Repr

/-- The per-certificate fields retained by the certificate parser
(spec section 3, `cert::Cert` without the `ee_or_ca` back-pointer):
DER sub-slices for issuer, subject, SPKI, validity and the signed-data
triple, plus the optional extension values. -/
structure CertData where
  issuer : Bytes
  subject : Bytes
  spki : Bytes
  validity : Bytes
  signed_data : Bytes
  basic_constraints : Option Bytes
  eku : Option Bytes
  name_constraints : Option Bytes
deriving DecidableEq, Repr

/-- A parsed certificate together with its `ee_or_ca` back-pointer chain:
`descendants` lists the child, grandchild, ..., down to the end-entity, so
`descendants = []` is exactly `EndEntityOrCA::EndEntity` and a nonempty
list is `EndEntityOrCA::CA(child)`.  This list representation is
isomorphic to the back-pointer of the source and keeps recursion over the
ancestor chain structural. -/
structure Cert where
  data : CertData
  descendants : List CertData
deriving DecidableEq, Repr

/-- `cert::EndEntityOrCA`, viewed over the list representation of `Cert`. -/
inductive EndEntityOrCA where
  | EndEntity : EndEntityOrCA
  | CA : Cert → EndEntityOrCA

/-- The `ee_or_ca` field of a certificate, recovered from `descendants`. -/
def Cert.ee_or_ca (c : Cert) : EndEntityOrCA :=
  match c.descendants with
  | [] => .EndEntity
  | d :: rest => .CA ⟨d, rest⟩

/-- `verify_cert.rs` `used_as_ca`. -/
def used_as_ca : EndEntityOrCA → UsedAsCA
  | .EndEntity => .No
  | .CA _ => .Yes

/-- `webpki.rs` `TrustAnchor`. -/
structure TrustAnchor where
  subject : Bytes
  spki : Bytes
  name_constraints : Option Bytes
deriving DecidableEq, Repr

/-- Modelled from the spec: the collaborators that are not among the
provided sources, abstracted as functions.
`parse_cert_fields` is the DER-dependent part of `cert::parse_cert`
(cert.rs); `check_name_constraints` is `name::check_name_constraints`
under its `read_all_optional` wrapper (name.rs); `verify_signed_data` is
`signed_data::verify_signed_data` with the caller's accepted
signature-algorithm set folded in (signed_data.rs). -/
structure Env where
  parse_cert_fields : Bytes → Except Error CertData
  check_name_constraints : Option Bytes → Cert → Except Error Unit
  verify_signed_data : Bytes → Bytes → Except Error Unit

/-- Modelled from the spec: `cert::parse_cert` (cert.rs is not among the
provided sources).  The DER fields are produced by the abstract field
parser and the `ee_or_ca` argument is stored in the returned certificate
(spec section 3: `ee_or_ca` is "a tagged variant ... the latter carries a
back-pointer ... to the child cert in the chain"). -/
def parse_cert (env : Env) (cert_der : Bytes) (ee_or_ca : EndEntityOrCA) : Except Error Cert :=
  match env.parse_cert_fields cert_der with
  | .error e => .error e
  | .ok cd =>
    .ok ⟨cd, match ee_or_ca with
             | .EndEntity => []
             | .CA child => child.data :: child.descendants⟩

/-- `verify_cert.rs` `check_validity` (reader-style: returns the bytes left
after the two times; the `read_all` at the call site requires them empty). -/
def check_validity (input : Bytes) (time : Nat) : Except Error (Unit × Bytes) :=
  match time_choice input with
  | .error e => .error e
  | .ok (not_before, input) =>
    match time_choice input with
    | .error e => .error e
    | .ok (not_after, input) =>
      if not_before > not_after then .error .InvalidCertValidity
      else if time < not_before then .error .CertNotValidYet
      else if time > not_after then .error .CertExpired
      else .ok ((), input)

/-- The `let (is_ca, path_len_constraint) = match input ...` phase of
`check_basic_constraints`, together with the end-of-input requirement of
the `read_all_optional` wrapper at its call site: an absent extension
decodes to `(false, none)`; a present one is an optional boolean followed
by an optional small nonnegative integer, with trailing bytes a `BadDER`. -/
def decode_basic_constraints (input : Option Bytes) : Except Error (Bool × Option Nat) :=
  match input with
  | none => .ok (false, none)
  | some bytes =>
    match optional_boolean bytes with
    | .error e => .error e
    | .ok (is_ca, after) =>
      if after.isEmpty then .ok (is_ca, none)
      else
        match small_nonnegative_integer after with
        | .error e => .error e
        | .ok (value, after2) =>
          if after2.isEmpty then .ok (is_ca, some value) else .error .BadDER

/-- `verify_cert.rs` `check_basic_constraints` (with the `read_all_optional`
wrapper of its call site folded into the decoding phase). -/
def check_basic_constraints (input : Option Bytes) (uc : UsedAsCA) (sub_ca_count : Nat) :
    Except Error Unit :=
  match decode_basic_constraints input with
  | .error e => .error e
  | .ok (is_ca, path_len_constraint) =>
    match uc, is_ca, path_len_constraint with
    | .No, true, _ => .error .CAUsedAsEndEntity
    | .Yes, false, _ => .error .EndEntityUsedAsCA
    | .Yes, true, some len =>
      if sub_ca_count > len then .error .PathLenConstraintViolated else .ok ()
    | _, _, _ => .ok ()

/-- `verify_cert.rs` `EKU_SERVER_AUTH` (`KeyPurposeId` modelled as its
`oid_value` byte string): id-kp-serverAuth, 1.3.6.1.5.5.7.3.1. -/
def EKU_SERVER_AUTH : Bytes := [43, 6, 1, 5, 5, 7, 3, 1]

/-- `verify_cert.rs` `EKU_OCSP_SIGNING`: id-kp-OCSPSigning, 1.3.6.1.5.5.7.3.9. -/
def EKU_OCSP_SIGNING : Bytes := [43, 6, 1, 5, 5, 7, 3, 9]

/-- `verify_cert.rs` `EKU_NETSCAPE_SERVER_STEP_UP`: id-Netscape-stepUp,
2.16.840.1.113730.4.1. -/
def EKU_NETSCAPE_SERVER_STEP_UP : Bytes := [96, 134, 72, 1, 134, 248, 66, 4, 1]

/-- The `match_step_up` flag computed at the top of `check_eku`: true only
when the certificate is used as a CA and the required purpose is
id-kp-serverAuth. -/
def eku_match_step_up (uc : UsedAsCA) (required_eku_if_present : Bytes) : Bool :=
  match uc with
  | .Yes => required_eku_if_present == EKU_SERVER_AUTH
  | .No => false

/-- `expect_tag_and_get_value` consumes at least the tag and length octets. -/
theorem read_tag_and_get_value_length {input : Bytes} {t : Nat} {v rest : Bytes}
    (h : read_tag_and_get_value input = .ok ((t, v), rest)) :
    rest.length + 2 ≤ input.length := by
  match input with
  | [] => simp [read_tag_and_get_value] at h
  | tag :: after_tag =>
    rw [read_tag_and_get_value.eq_def] at h
    by_cases htag : (tag % 32 == 31) = true
    · simp [htag] at h
    · simp only [htag, if_false, Bool.false_eq_true] at h
      match after_tag with
      | [] => simp at h
      | lb :: after_len =>
        simp only at h
        split at h
        · rw [read_value] at h
          split at h
          · simp only [Except.ok.injEq, Prod.mk.injEq] at h
            obtain ⟨⟨_, _⟩, hrest⟩ := h
            subst hrest
            simp only [List.length_drop, List.length_cons]
            omega
          · simp at h
        · split at h
          · match after_len with
            | [] => simp at h
            | l2 :: after_l2 =>
              simp only at h
              split at h
              · simp at h
              · rw [read_value] at h
                split at h
                · simp only [Except.ok.injEq, Prod.mk.injEq] at h
                  obtain ⟨⟨_, _⟩, hrest⟩ := h
                  subst hrest
                  simp only [List.length_drop, List.length_cons]
                  omega
                · simp at h
          · split at h
            · match after_len with
              | [] => simp at h
              | [l2] => simp at h
              | l2 :: l3 :: after_l3 =>
                simp only at h
                split at h
                · simp at h
                · rw [read_value] at h
                  split at h
                  · simp only [Except.ok.injEq, Prod.mk.injEq] at h
                    obtain ⟨⟨_, _⟩, hrest⟩ := h
                    subst hrest
                    simp only [List.length_drop, List.length_cons]
                    omega
                  · simp at h
            · simp at h

/-- A successful `expect_tag_and_get_value` strictly shrinks the input. -/
theorem expect_tag_and_get_value_length {tag : Nat} {input v rest : Bytes}
    (h : expect_tag_and_get_value tag input = .ok (v, rest)) :
    rest.length < input.length := by
  rw [expect_tag_and_get_value] at h
  split at h
  · exact absurd h (by simp)
  · rename_i heq
    split at h
    · simp only [Except.ok.injEq, Prod.mk.injEq] at h
      obtain ⟨_, hrest⟩ := h
      subst hrest
      have := read_tag_and_get_value_length heq
      omega
    · exact absurd h (by simp)

/-- The OID-scanning loop of `check_eku` for a present extension: read an
OID; on a match (the required purpose, or — when `match_step_up` — the
Netscape step-up OID) skip the rest of the extension and succeed; at the
end of the extension without a match fail with `RequiredEKUNotFound`. -/
def check_eku_values (match_step_up : Bool) (required_eku_if_present : Bytes) (input : Bytes) :
    Except Error Unit :=
  match h : expect_tag_and_get_value 6 input with
  | .error e => .error e
  | .ok (value, rest) =>
    if value == required_eku_if_present
        || (match_step_up && value == EKU_NETSCAPE_SERVER_STEP_UP) then
      .ok ()
    else if rest.isEmpty then .error .RequiredEKUNotFound
    else check_eku_values match_step_up required_eku_if_present rest
termination_by input.length
decreasing_by
  exact expect_tag_and_get_value_length h

/-- `verify_cert.rs` `check_eku`: an absent extension is accepted unless
the required purpose is OCSP signing; a present extension is scanned by
`check_eku_values` with the step-up compatibility flag. -/
def check_eku (input : Option Bytes) (uc : UsedAsCA) (required_eku_if_present : Bytes) :
    Except Error Unit :=
  match input with
  | some bytes =>
    check_eku_values (eku_match_step_up uc required_eku_if_present) required_eku_if_present
      bytes
  | none =>
    if required_eku_if_present == EKU_OCSP_SIGNING then .error .RequiredEKUNotFound
    else .ok ()

/-- `verify_cert.rs` `check_issuer_independent_properties`: validity window,
Basic Constraints, then EKU. -/
def check_issuer_independent_properties (cert : Cert) (time : Nat) (uc : UsedAsCA)
    (sub_ca_count : Nat) (required_eku_if_present : Bytes) : Except Error Unit :=
  match read_all .BadDER (fun v => check_validity v time) cert.data.validity with
  | .error e => .error e
  | .ok _ =>
    match check_basic_constraints cert.data.basic_constraints uc sub_ca_count with
    | .error e => .error e
    | .ok _ => check_eku cert.data.eku uc required_eku_if_present

/-- `verify_cert.rs` `loop_while_non_fatal_error`: try each candidate in
order, return the first success, swallow every failure, and surface
`UnknownIssuer` once the candidates are exhausted. -/
def loop_while_non_fatal_error {α : Type} (f : α → Except Error Unit) :
    List α → Except Error Unit
  | [] => .error .UnknownIssuer
  | v :: rest =>
    match f v with
    | .ok _ => .ok ()
    | .error _ => loop_while_non_fatal_error f rest

/-- The outcome of a `build_chain` invocation.  `ok`/`err` mirror the Rust
`Result`; `panicked` is the `assert_eq!(0, sub_ca_count)` failure; and
`outOfFuel` is the recursion-depth fuel of the embedding running out
(proved unreachable for the fuel `build_chain` uses). -/
inductive BuildResult where
  | ok : BuildResult
  | err : Error → BuildResult
  | panicked : BuildResult
  | outOfFuel : BuildResult
deriving DecidableEq, Repr

/-- `loop_while_non_fatal_error` lifted to `BuildResult` bodies for the
intermediate-certificate search (whose body recurses into `build_chain`):
non-fatal `err`s are swallowed exactly as in the source, while a panic or
fuel exhaustion inside a candidate propagates. -/
def loopB {α : Type} (f : α → BuildResult) : List α → BuildResult
  | [] => .err .UnknownIssuer
  | v :: rest =>
    match f v with
    | .ok => .ok
    | .err _ => loopB f rest
    | .panicked => .panicked
    | .outOfFuel => .outOfFuel

/-- The ancestor walk of `build_chain` (its loop-prevention check, RFC 4158
section 5.2): true when the potential issuer's (spki, subject) pair equals
that of `prev` or of any entry of `rest` (the chain below `prev`). -/
def loop_check (potential_issuer : CertData) (prev : CertData) (rest : List CertData) : Bool :=
  if potential_issuer.spki == prev.spki && potential_issuer.subject == prev.subject then true
  else
    match rest with
    | [] => false
    | d :: ds => loop_check potential_issuer d ds

/-- `verify_cert.rs` `check_signatures`: verify each certificate of the
chain under its parent's SPKI, starting from the trust anchor's key. -/
def check_signatures (env : Env) (spki_value : Bytes) (cert : CertData)
    (rest : List CertData) : Except Error Unit :=
  match env.verify_signed_data spki_value cert.signed_data with
  | .error e => .error e
  | .ok _ =>
    match rest with
    | [] => .ok ()
    | child :: ds => check_signatures env cert.spki child ds

/-- The trust-anchor candidate body of `build_chain` (the first closure
passed to `loop_while_non_fatal_error`): subject must equal the current
certificate's issuer, then the anchor's name constraints are applied to
the current certificate, then the chain's signatures are verified under
the anchor's SPKI. -/
def check_anchor (env : Env) (cert : Cert) (trust_anchor : TrustAnchor) :
    Except Error Unit :=
  if cert.data.issuer != trust_anchor.subject then .error .UnknownIssuer
  else
    match env.check_name_constraints trust_anchor.name_constraints cert with
    | .error e => .error e
    | .ok _ => check_signatures env trust_anchor.spki cert.data cert.descendants

/-- `verify_cert.rs` `MAX_SUB_CA_COUNT`. -/
def MAX_SUB_CA_COUNT : Nat := 6

/-- The `next_sub_ca_count` computation of the intermediate-candidate body:
increment only when the current certificate is used as a CA. -/
def next_sub_ca_count (uc : UsedAsCA) (sub_ca_count : Nat) : Nat :=
  match uc with
  | .No => sub_ca_count
  | .Yes => sub_ca_count + 1

/-- The intermediate-certificate candidate body of `build_chain` (the
closure passed to `loop_while_non_fatal_error` over `intermediate_certs`),
with the recursive `build_chain` call abstracted as `recurse`: parse the
candidate as a CA of the current certificate, require its subject to equal
the current issuer, reject it if its (subject, spki) pair already occurs
on the chain, apply its name constraints, then recurse with the stepped
sub-CA count. -/
def consider_intermediate (env : Env) (cert : Cert) (uc : UsedAsCA) (sub_ca_count : Nat)
    (recurse : Cert → Nat → BuildResult) (cert_der : Bytes) : BuildResult :=
  match parse_cert env cert_der (.CA cert) with
  | .error e => .err e
  | .ok potential_issuer =>
    if potential_issuer.data.subject != cert.data.issuer then .err .UnknownIssuer
    else if loop_check potential_issuer.data cert.data cert.descendants then
      .err .UnknownIssuer
    else
      match env.check_name_constraints potential_issuer.data.name_constraints cert with
      | .error e => .err e
      | .ok _ => recurse potential_issuer (next_sub_ca_count uc sub_ca_count)

/-- `verify_cert.rs` `build_chain`, with an explicit recursion-depth fuel
(the source recursion is bounded by the `MAX_SUB_CA_COUNT` guard; the fuel
only makes that bound structural, and `build_chain_fuel_not_outOfFuel`
below proves the fuel of `build_chain` is never exhausted): check the
issuer-independent properties, apply the path-length guard (used-as-CA)
or the `assert_eq!(0, sub_ca_count)` (end-entity), try the trust anchors,
then search the intermediates recursively. -/
def build_chain_fuel : Nat → Env → Bytes → List TrustAnchor → List Bytes → Cert → Nat →
    Nat → BuildResult
  | 0, _, _, _, _, _, _, _ => .outOfFuel
  | fuel + 1, env, required_eku_if_present, trust_anchors, intermediate_certs, cert, time,
      sub_ca_count =>
    let uc := used_as_ca cert.ee_or_ca
    match check_issuer_independent_properties cert time uc sub_ca_count
        required_eku_if_present with
    | .error e => .err e
    | .ok _ =>
      let guard : Option BuildResult :=
        match uc with
        | .Yes =>
          if MAX_SUB_CA_COUNT ≤ sub_ca_count then some (.err .UnknownIssuer) else none
        | .No => if sub_ca_count == 0 then none else some .panicked
      match guard with
      | some r => r
      | none =>
        match loop_while_non_fatal_error (check_anchor env cert) trust_anchors with
        | .ok _ => .ok
        | .error _ =>
          loopB
            (consider_intermediate env cert uc sub_ca_count
              (fun c n =>
                build_chain_fuel fuel env required_eku_if_present trust_anchors
                  intermediate_certs c time n))
            intermediate_certs

/-- `verify_cert.rs` `build_chain`.  Fuel 8 covers the deepest possible
walk: the end-entity plus seven used-as-CA frames (sub-CA counts 0..6,
the last of which is stopped by the `MAX_SUB_CA_COUNT` guard). -/
def build_chain (env : Env) (required_eku_if_present : Bytes)
    (trust_anchors : List TrustAnchor) (intermediate_certs : List Bytes) (cert : Cert)
    (time : Nat) (sub_ca_count : Nat) : BuildResult :=
  build_chain_fuel 8 env required_eku_if_present trust_anchors intermediate_certs cert time
    sub_ca_count

/-- `webpki.rs` `EndEntityCert::verify_is_valid_tls_server_cert`:
`build_chain` with the server-auth EKU and a zero sub-CA count. -/
def verify_is_valid_tls_server_cert (env : Env) (trust_anchors : List TrustAnchor)
    (intermediate_certs : List Bytes) (cert : Cert) (time : Nat) : BuildResult :=
  build_chain env EKU_SERVER_AUTH trust_anchors intermediate_certs cert time 0

/-- ASCII encoding of a two-digit decimal field (for `n ≤ 99`), used to
state properties of `time_choice`. -/
def two_digits (n : Nat) : Bytes := [48 + n / 10, 48 + n % 10]

/-- Short-form DER TLV of an OID body (for `oid.length < 128`), used to
state properties of `check_eku`. -/
def encode_oid (oid : Bytes) : Bytes := 6 :: oid.length :: oid

/-- Concatenated OID TLVs: the value of an EKU extension, used to state
properties of `check_eku`. -/
def encode_eku : List Bytes → Bytes
  | [] => []
  | o :: os => encode_oid o ++ encode_eku os

/-- A 2016-01-01 .. 2017-01-01 validity value (two UTCTimes), for the
concrete chain scenarios. -/
def validity_2016_2017 : Bytes :=
  [23, 13, 49, 54, 48, 49, 48, 49, 48, 48, 48, 48, 48, 48, 90,
   23, 13, 49, 55, 48, 49, 48, 49, 48, 48, 48, 48, 48, 48, 90]

/-- Scenario sub-CA number `k`: subject `[k]`, issued by subject `[k+1]`,
a CA by Basic Constraints, valid through 2016. -/
def mk_sub_ca (k : Nat) : CertData :=
  { issuer := [k + 1], subject := [k], spki := [100 + k],
    validity := validity_2016_2017, signed_data := [],
    basic_constraints := some [1, 1, 255], eku := none, name_constraints := none }

/-- Scenario end-entity: subject `[0]`, issued by subject `[1]`. -/
def ee_data : CertData :=
  { issuer := [1], subject := [0], spki := [100],
    validity := validity_2016_2017, signed_data := [],
    basic_constraints := none, eku := none, name_constraints := none }

/-- Scenario collaborators: the DER input `[k]` (k in 1..=7) parses to
sub-CA `k`; name constraints and signatures always pass, so the scenarios
isolate the chain-walk logic itself. -/
def chain_env : Env :=
  { parse_cert_fields := fun der =>
      match der with
      | [k] => if 1 ≤ k && k ≤ 7 then .ok (mk_sub_ca k) else .error .BadDER
      | _ => .error .BadDER,
    check_name_constraints := fun _ _ => .ok (),
    verify_signed_data := fun _ _ => .ok () }

/-- A validation time inside the scenario validity window (2016-06-01). -/
def t_mid : Nat := utc_seconds 2016 6 1 0 0 0

/-- Scenario trust anchor matching sub-CA 6's issuer. -/
def anchor7 : TrustAnchor := { subject := [7], spki := [207], name_constraints := none }

/-- Scenario trust anchor matching sub-CA 7's issuer. -/
def anchor8 : TrustAnchor := { subject := [8], spki := [208], name_constraints := none }

/-- The scenario end-entity certificate. -/
def ee_cert : Cert := { data := ee_data, descendants := [] }

/-- The DER inputs of the first `n` scenario sub-CAs. -/
def ders (n : Nat) : List Bytes := (List.range n).map (fun i => [i + 1])

/-- Collaborators that always fail to parse an intermediate and accept
name constraints and signatures; used to exercise `build_chain` on inputs
that never reach a candidate. -/
def null_env : Env :=
  { parse_cert_fields := fun _ => .error .BadDER,
    check_name_constraints := fun _ _ => .ok (),
    verify_signed_data := fun _ _ => .ok () }

/-- Fields of a self-signed certificate (subject equals issuer), for
exercising the loop-prevention check. -/
def self_signed_data : CertData :=
  { issuer := [1], subject := [1], spki := [9], validity := validity_2016_2017,
    signed_data := [], basic_constraints := some [1, 1, 255], eku := none,
    name_constraints := none }

/-- Collaborators under which every DER input parses to the self-signed
certificate fields. -/
def self_env : Env :=
  { parse_cert_fields := fun _ => .ok self_signed_data,
    check_name_constraints := fun _ _ => .ok (),
    verify_signed_data := fun _ _ => .ok () }

/-- The self-signed certificate used as the current end-entity. -/
def self_cert : Cert := { data := self_signed_data, descendants := [] }

/-- An end-entity certificate whose validity field is empty (malformed). -/
def bad_validity_cert : Cert :=
  { data :=
      { issuer := [1], subject := [0], spki := [100], validity := [], signed_data := [],
        basic_constraints := none, eku := none, name_constraints := none },
    descendants := [] }

/-- A short-form OID TLV parses to its body, leaving the following bytes. -/
theorem expect_tag_encode_oid (o rest : Bytes) (h : o.length < 128) :
    expect_tag_and_get_value 6 (encode_oid o ++ rest) = .ok (o, rest) := by
  have hle : o.length ≤ (o ++ rest).length := by simp
  show expect_tag_and_get_value 6 (6 :: o.length :: (o ++ rest)) = _
  rw [expect_tag_and_get_value, read_tag_and_get_value.eq_def]
  simp [h, read_value, hle, List.take_left, List.drop_left]

/-- Unfolding `check_eku_values` when the next OID TLV parses. -/
theorem check_eku_values_eq_ok (msu : Bool) (req input v rest : Bytes)
    (h : expect_tag_and_get_value 6 input = .ok (v, rest)) :
    check_eku_values msu req input =
      if v == req || (msu && v == EKU_NETSCAPE_SERVER_STEP_UP) then .ok ()
      else if rest.isEmpty then .error .RequiredEKUNotFound
      else check_eku_values msu req rest := by
  rw [check_eku_values.eq_def]
  split
  · rename_i heq
    rw [h] at heq
    cases heq
  · rename_i v' rest' heq
    rw [h] at heq
    injection heq with heq'
    injection heq' with hv hrest
    subst hv
    subst hrest
    rfl

/-- Unfolding `check_eku_values` when the next OID TLV fails to parse. -/
theorem check_eku_values_eq_error (msu : Bool) (req input : Bytes) (e : Error)
    (h : expect_tag_and_get_value 6 input = .error e) :
    check_eku_values msu req input = .error e := by
  rw [check_eku_values.eq_def]
  split
  · rename_i e' heq
    rw [h] at heq
    injection heq with he
    rw [he]
  · rename_i v' rest' heq
    rw [h] at heq
    cases heq

/-- The decision table of the spec's Basic Constraints policy, stated as
its own function so the claim below can compare `check_basic_constraints`
against it. -/
def bc_decision_table (uc : UsedAsCA) (is_ca : Bool) (plc : Option Nat)
    (sub_ca_count : Nat) : Except Error Unit :=
  match uc, is_ca, plc with
  | .No, true, _ => .error .CAUsedAsEndEntity
  | .Yes, false, _ => .error .EndEntityUsedAsCA
  | .Yes, true, some len =>
    if sub_ca_count > len then .error .PathLenConstraintViolated else .ok ()
  | _, _, _ => .ok ()

/-- C3: `check_basic_constraints` implements the spec's decision table
over the decoded extension: an absent extension decodes as not-a-CA with
no pathLenConstraint; a CA used as an end-entity is `CAUsedAsEndEntity`;
a non-CA used as a CA is `EndEntityUsedAsCA`; used-as-CA with
`pathLenConstraint` L and `sub_ca_count > L` is
`PathLenConstraintViolated`; every other combination succeeds — in
particular a non-CA certificate carrying a pathLenConstraint. -/
theorem c3_basic_constraints_table (input : Option Bytes) (uc : UsedAsCA)
    (sub_ca_count : Nat) (is_ca : Bool) (plc : Option Nat)
    (hdec : decode_basic_constraints input = .ok (is_ca, plc)) :
    decode_basic_constraints none = .ok (false, none) ∧
    check_basic_constraints input uc sub_ca_count =
      bc_decision_table uc is_ca plc sub_ca_count ∧
    (is_ca = false → check_basic_constraints input UsedAsCA.No sub_ca_count = .ok ()) := by
  refine ⟨rfl, ?_, ?_⟩
  · rw [check_basic_constraints, hdec]
    rfl
  · intro hca
    rw [check_basic_constraints, hdec, hca]

/-- Witness for C3 at a concrete input: a non-CA extension value carrying
`pathLenConstraint = 0` decodes as claimed and is accepted for an
end-entity. -/
theorem c3_basic_constraints_table_witness :
    decode_basic_constraints (some [2, 1, 0]) = .ok (false, some 0) ∧
    check_basic_constraints (some [2, 1, 0]) UsedAsCA.No 5 = .ok () := by
  refine ⟨by decide, ?_⟩
  exact (c3_basic_constraints_table (some [2, 1, 0]) UsedAsCA.No 5 false (some 0)
    (by decide)).2.2 rfl

/-- C5: with the EKU extension absent, `check_eku` fails (with
`RequiredEKUNotFound`) exactly when the required purpose is OCSP signing,
and succeeds for every other required purpose. -/
theorem c5_eku_absent (uc : UsedAsCA) (required : Bytes) :
    (check_eku none uc required = .error .RequiredEKUNotFound ↔
      required = EKU_OCSP_SIGNING) ∧
    (required ≠ EKU_OCSP_SIGNING → check_eku none uc required = .ok ()) := by
  constructor
  · by_cases h : required = EKU_OCSP_SIGNING <;> simp [check_eku, h]
  · intro h
    simp [check_eku, h]

/-- Witness for C5: OCSP signing required with no EKU fails; server auth
required with no EKU succeeds. -/
theorem c5_eku_absent_witness :
    check_eku none UsedAsCA.No EKU_OCSP_SIGNING = .error .RequiredEKUNotFound ∧
    check_eku none UsedAsCA.No EKU_SERVER_AUTH = .ok () :=
  ⟨(c5_eku_absent UsedAsCA.No EKU_OCSP_SIGNING).1.mpr rfl,
   (c5_eku_absent UsedAsCA.No EKU_SERVER_AUTH).2 (by decide)⟩

/-- C6: over the decoded validity pair, `check_validity` returns
`InvalidCertValidity` when notBefore > notAfter, else `CertNotValidYet`
when the time is before notBefore, else `CertExpired` when it is after
notAfter, else succeeds; the boundary instants are accepted. -/
theorem c6_validity_window (input rest1 rest2 : Bytes) (nb na t : Nat)
    (h1 : time_choice input = .ok (nb, rest1))
    (h2 : time_choice rest1 = .ok (na, rest2)) :
    check_validity input t =
      (if nb > na then .error .InvalidCertValidity
       else if t < nb then .error .CertNotValidYet
       else if t > na then .error .CertExpired
       else .ok ((), rest2)) ∧
    (nb ≤ na → check_validity input nb = .ok ((), rest2)) ∧
    (nb ≤ na → check_validity input na = .ok ((), rest2)) := by
  refine ⟨?_, ?_, ?_⟩
  · simp only [check_validity, h1, h2]
  · intro h
    simp only [check_validity, h1, h2]
    rw [if_neg (by omega), if_neg (by omega), if_neg (by omega)]
  · intro h
    simp only [check_validity, h1, h2]
    rw [if_neg (by omega), if_neg (by omega), if_neg (by omega)]

/-- Witness for C6 at the concrete 2016..2017 validity value: a mid-window
time is accepted, an early 2015 time is `CertNotValidYet`, a late 2018
time is `CertExpired`. -/
theorem c6_validity_window_witness :
    check_validity validity_2016_2017 t_mid = .ok ((), []) ∧
    check_validity validity_2016_2017 (utc_seconds 2015 1 1 0 0 0) =
      .error .CertNotValidYet ∧
    check_validity validity_2016_2017 (utc_seconds 2018 1 1 0 0 0) =
      .error .CertExpired := by
  have h := fun t => c6_validity_window validity_2016_2017
    [23, 13, 49, 55, 48, 49, 48, 49, 48, 48, 48, 48, 48, 48, 90] []
    (utc_seconds 2016 1 1 0 0 0) (utc_seconds 2017 1 1 0 0 0) t (by decide) (by decide)
  refine ⟨?_, ?_, ?_⟩
  · rw [(h t_mid).1, if_neg (by decide), if_neg (by decide), if_neg (by decide)]
  · rw [(h (utc_seconds 2015 1 1 0 0 0)).1, if_neg (by decide), if_pos (by decide)]
  · rw [(h (utc_seconds 2018 1 1 0 0 0)).1, if_neg (by decide), if_neg (by decide),
      if_pos (by decide)]

/-- C9: once `check_eku` finds a matching OID it skips the remaining bytes
of the extension value without decoding them, so arbitrary trailing junk
after the matching OID is accepted; a present extension containing zero
OIDs fails with `BadDER`, not `RequiredEKUNotFound`. -/
theorem c9_eku_skip_and_empty (o junk : Bytes) (uc : UsedAsCA) (required : Bytes)
    (hlen : o.length < 128)
    (hmatch : (o == required
        || (eku_match_step_up uc required && o == EKU_NETSCAPE_SERVER_STEP_UP)) = true) :
    check_eku (some (encode_oid o ++ junk)) uc required = .ok () ∧
    check_eku (some []) uc required = .error .BadDER := by
  constructor
  · show check_eku_values (eku_match_step_up uc required) required (encode_oid o ++ junk)
        = .ok ()
    rw [check_eku_values_eq_ok (eku_match_step_up uc required) required _ o junk
      (expect_tag_encode_oid o junk hlen)]
    rw [if_pos hmatch]
  · show check_eku_values (eku_match_step_up uc required) required [] = .error .BadDER
    exact check_eku_values_eq_error _ _ [] .BadDER (by decide)

/-- Witness for C9: a server-auth OID followed by junk bytes is accepted
for an end-entity requiring server auth, and the empty extension value is
`BadDER`. -/
theorem c9_eku_skip_and_empty_witness :
    check_eku (some (encode_oid EKU_SERVER_AUTH ++ [255, 255])) UsedAsCA.No
      EKU_SERVER_AUTH = .ok () ∧
    check_eku (some []) UsedAsCA.No EKU_SERVER_AUTH = .error .BadDER :=
  c9_eku_skip_and_empty EKU_SERVER_AUTH [255, 255] UsedAsCA.No EKU_SERVER_AUTH
    (by decide) (by decide)

/-- The OID scan of `check_eku_values` over a well-formed list of encoded
OIDs computes a membership test against the required purpose (and, when
the step-up flag is set, the Netscape step-up OID). -/
theorem check_eku_values_scan (msu : Bool) (required : Bytes) :
    ∀ (os : List Bytes) (o : Bytes), o.length < 128 → (∀ x ∈ os, x.length < 128) →
      check_eku_values msu required (encode_oid o ++ encode_eku os) =
        if (o :: os).any
            (fun x => x == required || (msu && x == EKU_NETSCAPE_SERVER_STEP_UP)) then
          .ok ()
        else .error .RequiredEKUNotFound := by
  intro os
  induction os with
  | nil =>
    intro o ho _
    rw [check_eku_values_eq_ok msu required _ o (encode_eku [])
      (expect_tag_encode_oid o _ ho)]
    by_cases hp : (o == required || (msu && o == EKU_NETSCAPE_SERVER_STEP_UP)) = true
    · simp [hp]
    · simp only [Bool.not_eq_true] at hp
      simp [hp, encode_eku]
  | cons o2 os2 ih =>
    intro o ho hos
    rw [check_eku_values_eq_ok msu required _ o (encode_eku (o2 :: os2))
      (expect_tag_encode_oid o _ ho)]
    by_cases hp : (o == required || (msu && o == EKU_NETSCAPE_SERVER_STEP_UP)) = true
    · simp [hp]
    · simp only [Bool.not_eq_true] at hp
      rw [if_neg (by simp [hp])]
      rw [if_neg (by simp [encode_eku, encode_oid])]
      rw [show encode_eku (o2 :: os2) = encode_oid o2 ++ encode_eku os2 from rfl]
      rw [ih o2 (hos o2 (by simp)) (fun x hx => hos x (by simp [hx]))]
      simp [hp]

/-- C4: with the EKU extension present, `check_eku` succeeds exactly when
the required purpose OID occurs in the list, or — only for a used-as-CA
certificate with server auth required — the Netscape step-up OID occurs;
any other OID (in particular anyExtendedKeyUsage) is never recognized,
and exhausting the list yields `RequiredEKUNotFound`. -/
theorem c4_eku_present_scan (oids : List Bytes) (uc : UsedAsCA) (required : Bytes)
    (hne : oids ≠ []) (hwf : ∀ o ∈ oids, o.length < 128) :
    check_eku (some (encode_eku oids)) uc required =
      if required ∈ oids ∨
          (uc = UsedAsCA.Yes ∧ required = EKU_SERVER_AUTH ∧
            EKU_NETSCAPE_SERVER_STEP_UP ∈ oids) then
        .ok ()
      else .error .RequiredEKUNotFound := by
  match oids, hne with
  | o :: os, _ =>
    show check_eku_values (eku_match_step_up uc required) required
        (encode_oid o ++ encode_eku os) = _
    rw [check_eku_values_scan (eku_match_step_up uc required) required os o
      (hwf o (by simp)) (fun x hx => hwf x (by simp [hx]))]
    by_cases hc : required ∈ o :: os ∨
        (uc = UsedAsCA.Yes ∧ required = EKU_SERVER_AUTH ∧
          EKU_NETSCAPE_SERVER_STEP_UP ∈ o :: os)
    · rw [if_pos hc, if_pos ?_]
      rcases hc with hmem | ⟨hyes, hreq, hstep⟩
      · exact List.any_eq_true.mpr ⟨required, hmem, by simp⟩
      · refine List.any_eq_true.mpr ⟨EKU_NETSCAPE_SERVER_STEP_UP, hstep, ?_⟩
        subst hyes
        subst hreq
        decide
    · rw [if_neg hc, if_neg ?_]
      intro hany
      rcases List.any_eq_true.mp hany with ⟨x, hx, hpx⟩
      have hpx' : x = required ∨
          (eku_match_step_up uc required = true ∧ x = EKU_NETSCAPE_SERVER_STEP_UP) := by
        simpa using hpx
      rcases hpx' with hx1 | ⟨hmsu, hxs⟩
      · exact hc (Or.inl (hx1 ▸ hx))
      · cases uc with
        | No => simp [eku_match_step_up] at hmsu
        | Yes =>
          have hreq : required = EKU_SERVER_AUTH := by
            simpa [eku_match_step_up] using hmsu
          exact hc (Or.inr ⟨rfl, hreq, hxs ▸ hx⟩)

/-- Witness for C4: an EKU of only the step-up OID with server auth
required fails for an end-entity but succeeds for a used-as-CA
certificate. -/
theorem c4_eku_present_scan_witness :
    check_eku (some (encode_eku [EKU_NETSCAPE_SERVER_STEP_UP])) UsedAsCA.No
      EKU_SERVER_AUTH = .error .RequiredEKUNotFound ∧
    check_eku (some (encode_eku [EKU_NETSCAPE_SERVER_STEP_UP])) UsedAsCA.Yes
      EKU_SERVER_AUTH = .ok () := by
  constructor
  · rw [c4_eku_present_scan [EKU_NETSCAPE_SERVER_STEP_UP] UsedAsCA.No EKU_SERVER_AUTH
      (by simp) (by decide), if_neg (by decide)]
  · rw [c4_eku_present_scan [EKU_NETSCAPE_SERVER_STEP_UP] UsedAsCA.Yes EKU_SERVER_AUTH
      (by simp) (by decide), if_pos (by decide)]

/-- One-step unfolding of `build_chain_fuel` at positive fuel. -/
theorem build_chain_fuel_succ_eq (fuel : Nat) (env : Env) (req : Bytes)
    (tas : List TrustAnchor) (ints : List Bytes) (cert : Cert) (t count : Nat) :
    build_chain_fuel (fuel + 1) env req tas ints cert t count =
      match check_issuer_independent_properties cert t (used_as_ca cert.ee_or_ca) count
          req with
      | .error e => .err e
      | .ok _ =>
        match
          (match used_as_ca cert.ee_or_ca with
           | UsedAsCA.Yes =>
             if MAX_SUB_CA_COUNT ≤ count then some (BuildResult.err .UnknownIssuer)
             else none
           | UsedAsCA.No => if count == 0 then none else some BuildResult.panicked) with
        | some r => r
        | none =>
          match loop_while_non_fatal_error (check_anchor env cert) tas with
          | .ok _ => .ok
          | .error _ =>
            loopB
              (consider_intermediate env cert (used_as_ca cert.ee_or_ca) count
                (fun c n => build_chain_fuel fuel env req tas ints c t n))
              ints := rfl

/-- The first succeeding candidate makes `loop_while_non_fatal_error`
succeed, whatever errors precede it. -/
theorem loop_first_ok {α : Type} (f : α → Except Error Unit) (pre post : List α) (x : α)
    (hpre : ∀ y ∈ pre, ∃ e, f y = .error e) (hx : f x = .ok ()) :
    loop_while_non_fatal_error f (pre ++ x :: post) = .ok () := by
  induction pre with
  | nil =>
    simp only [List.nil_append, loop_while_non_fatal_error, hx]
  | cons y ys ih =>
    obtain ⟨e, he⟩ := hpre y (by simp)
    simp only [List.cons_append, loop_while_non_fatal_error, he]
    exact ih (fun z hz => hpre z (by simp [hz]))

/-- When every candidate fails, `loop_while_non_fatal_error` surfaces
`UnknownIssuer` and no per-candidate error. -/
theorem loop_all_fail {α : Type} (f : α → Except Error Unit) (zs : List α)
    (hzs : ∀ z ∈ zs, ∃ e, f z = .error e) :
    loop_while_non_fatal_error f zs = .error .UnknownIssuer := by
  induction zs with
  | nil => rfl
  | cons z rest ih =>
    obtain ⟨e, he⟩ := hzs z (by simp)
    simp only [loop_while_non_fatal_error, he]
    exact ih (fun y hy => hzs y (by simp [hy]))

/-- C7 counterexample: `build_chain` with empty trust-anchor and
intermediate lists does not always return `UnknownIssuer` — with a
malformed validity field it returns `BadDER` from the issuer-independent
checks instead. -/
theorem c7_empty_lists_counterexample :
    build_chain null_env EKU_SERVER_AUTH [] [] bad_validity_cert 0 0 = .err .BadDER ∧
    build_chain null_env EKU_SERVER_AUTH [] [] bad_validity_cert 0 0 ≠
      .err .UnknownIssuer := by
  constructor
  · decide
  · decide

/-- C7 (amended): the candidate search is error-swallowing —
`loop_while_non_fatal_error` returns Ok at the first succeeding candidate,
discards the error of every failing candidate regardless of its kind, and
returns `UnknownIssuer` once all candidates are exhausted; and
`build_chain` with empty trust-anchor and intermediate lists returns
`UnknownIssuer` provided the issuer-independent checks on the certificate
succeed (and `sub_ca_count` is 0 when the certificate is the end-entity,
as on every reachable call). -/
theorem c7_error_swallowing_amended {α : Type} (f : α → Except Error Unit)
    (pre post zs : List α) (x : α) (env : Env) (req : Bytes) (cert : Cert) (t count : Nat)
    (hpre : ∀ y ∈ pre, ∃ e, f y = .error e) (hx : f x = .ok ())
    (hzs : ∀ z ∈ zs, ∃ e, f z = .error e)
    (hok : check_issuer_independent_properties cert t (used_as_ca cert.ee_or_ca) count req
      = .ok ())
    (hee : used_as_ca cert.ee_or_ca = UsedAsCA.No → count = 0) :
    loop_while_non_fatal_error f (pre ++ x :: post) = .ok () ∧
    loop_while_non_fatal_error f zs = .error .UnknownIssuer ∧
    build_chain env req [] [] cert t count = .err .UnknownIssuer := by
  refine ⟨loop_first_ok f pre post x hpre hx, loop_all_fail f zs hzs, ?_⟩
  have h8 : build_chain env req [] [] cert t count =
      build_chain_fuel (7 + 1) env req [] [] cert t count := rfl
  rw [h8, build_chain_fuel_succ_eq, hok]
  cases hca : used_as_ca cert.ee_or_ca with
  | No =>
    simp only [hca, hee hca]
    rfl
  | Yes =>
    simp only [hca]
    by_cases h6 : MAX_SUB_CA_COUNT ≤ count
    · rw [if_pos h6]
    · rw [if_neg h6]
      rfl

/-- Witness for C7 (amended) at concrete candidates and a concrete valid
end-entity certificate. -/
theorem c7_error_swallowing_amended_witness :
    loop_while_non_fatal_error
      (fun b : Bytes => if b.isEmpty then .ok () else .error .BadDER) [[1], []] =
      .ok () ∧
    loop_while_non_fatal_error
      (fun b : Bytes => if b.isEmpty then .ok () else .error .BadDER) [[2]] =
      .error .UnknownIssuer ∧
    build_chain null_env EKU_SERVER_AUTH [] [] ee_cert t_mid 0 =
      .err .UnknownIssuer := by
  have h := c7_error_swallowing_amended
    (fun b : Bytes => if b.isEmpty then .ok () else .error .BadDER)
    [[1]] [] [[2]] [] null_env EKU_SERVER_AUTH ee_cert t_mid 0
    (by intro y hy; simp at hy; subst hy; exact ⟨.BadDER, rfl⟩)
    rfl
    (by intro z hz; simp at hz; subst hz; exact ⟨.BadDER, rfl⟩)
    (by decide)
    (fun _ => rfl)
  exact h

/-- C1: whenever the current certificate is used as a CA and
`sub_ca_count ≥ 6`, `build_chain` fails without consulting any trust
anchor or intermediate — the result is the issuer-independent error when
those checks fail and `UnknownIssuer` otherwise, independently of the
candidate lists; and concretely a chain of seven sub-CAs fails with
`UnknownIssuer`, while a chain of exactly six sub-CAs is not rejected by
this guard (it validates). -/
theorem c1_path_length_guard (env : Env) (req : Bytes) (tas : List TrustAnchor)
    (ints : List Bytes) (cert : Cert) (t count : Nat)
    (hca : used_as_ca cert.ee_or_ca = UsedAsCA.Yes) (hcount : 6 ≤ count) :
    (check_issuer_independent_properties cert t UsedAsCA.Yes count req = .ok () →
      build_chain env req tas ints cert t count = .err .UnknownIssuer) ∧
    (∀ e, check_issuer_independent_properties cert t UsedAsCA.Yes count req = .error e →
      build_chain env req tas ints cert t count = .err e) ∧
    build_chain env req tas ints cert t count = build_chain env req [] [] cert t count ∧
    verify_is_valid_tls_server_cert chain_env [anchor7] (ders 6) ee_cert t_mid = .ok ∧
    verify_is_valid_tls_server_cert chain_env [anchor8] (ders 7) ee_cert t_mid =
      .err .UnknownIssuer := by
  have hmain : ∀ (tas2 : List TrustAnchor) (ints2 : List Bytes),
      build_chain env req tas2 ints2 cert t count =
        match check_issuer_independent_properties cert t UsedAsCA.Yes count req with
        | .ok _ => .err .UnknownIssuer
        | .error e => .err e := by
    intro tas2 ints2
    have h8 : build_chain env req tas2 ints2 cert t count =
        build_chain_fuel (7 + 1) env req tas2 ints2 cert t count := rfl
    rw [h8, build_chain_fuel_succ_eq, hca]
    cases hchk : check_issuer_independent_properties cert t UsedAsCA.Yes count req with
    | error e => rfl
    | ok _ =>
      rw [if_pos (show MAX_SUB_CA_COUNT ≤ count from hcount)]
  refine ⟨?_, ?_, ?_, by decide, by decide⟩
  · intro hok
    rw [hmain tas ints, hok]
  · intro e he
    rw [hmain tas ints, he]
  · rw [hmain tas ints, hmain [] []]

/-- Witness for C1: a used-as-CA certificate at `sub_ca_count = 6` with
passing issuer-independent checks is rejected as `UnknownIssuer` without
looking at the (empty) candidate lists. -/
theorem c1_path_length_guard_witness :
    build_chain null_env EKU_SERVER_AUTH [] [] (Cert.mk (mk_sub_ca 1) [ee_data]) t_mid 6 =
      .err .UnknownIssuer ∧
    verify_is_valid_tls_server_cert chain_env [anchor7] (ders 6) ee_cert t_mid = .ok := by
  have h := c1_path_length_guard null_env EKU_SERVER_AUTH [] []
    (Cert.mk (mk_sub_ca 1) [ee_data]) t_mid 6 (by decide) (by decide)
  exact ⟨h.1 (by decide), h.2.2.2.1⟩

/-- The certificate built for an intermediate candidate extends the chain
of the current certificate by one entry. -/
theorem parse_cert_ca_descendants {env : Env} {der : Bytes} {cert p : Cert}
    (h : parse_cert env der (.CA cert) = .ok p) :
    p.descendants = cert.data :: cert.descendants := by
  rw [parse_cert] at h
  cases henv : env.parse_cert_fields der with
  | error e => rw [henv] at h; cases h
  | ok cd =>
    rw [henv] at h
    injection h with h'
    rw [← h']

/-- A certificate with a nonempty descendant chain is used as a CA. -/
theorem used_as_ca_of_desc_cons {p : Cert} {d : CertData} {ds : List CertData}
    (h : p.descendants = d :: ds) : used_as_ca p.ee_or_ca = UsedAsCA.Yes := by
  rw [Cert.ee_or_ca, h]
  rfl

/-- The recursion-depth fuel that suffices for a `build_chain` invocation:
8 from an end-entity, and `7 - min sub_ca_count 6` from a used-as-CA
certificate (one frame when the guard fires, one per remaining sub-CA
otherwise). -/
def fuel_needed (cert : Cert) (count : Nat) : Nat :=
  match used_as_ca cert.ee_or_ca with
  | .No => 8
  | .Yes => 7 - min count 6

/-- Every invocation needs at least one unit of fuel. -/
theorem fuel_needed_pos (cert : Cert) (count : Nat) : 1 ≤ fuel_needed cert count := by
  cases h : used_as_ca cert.ee_or_ca <;> simp [fuel_needed, h] <;> omega

/-- No invocation needs more than the fuel `build_chain` supplies. -/
theorem fuel_needed_le_eight (cert : Cert) (count : Nat) : fuel_needed cert count ≤ 8 := by
  cases h : used_as_ca cert.ee_or_ca <;> simp [fuel_needed, h] <;> omega

/-- `loopB` never invents a `outOfFuel` result. -/
theorem loopB_ne_outOfFuel {α : Type} (f : α → BuildResult) (l : List α)
    (h : ∀ v ∈ l, f v ≠ .outOfFuel) : loopB f l ≠ .outOfFuel := by
  induction l with
  | nil => simp [loopB]
  | cons v vs ih =>
    cases hfv : f v with
    | ok => simp [loopB, hfv]
    | err e => simpa [loopB, hfv] using ih (fun w hw => h w (by simp [hw]))
    | panicked => simp [loopB, hfv]
    | outOfFuel => exact absurd hfv (h v (by simp))

/-- `loopB` never invents a panic. -/
theorem loopB_ne_panicked {α : Type} (f : α → BuildResult) (l : List α)
    (h : ∀ v ∈ l, f v ≠ .panicked) : loopB f l ≠ .panicked := by
  induction l with
  | nil => simp [loopB]
  | cons v vs ih =>
    cases hfv : f v with
    | ok => simp [loopB, hfv]
    | err e => simpa [loopB, hfv] using ih (fun w hw => h w (by simp [hw]))
    | panicked => exact absurd hfv (h v (by simp))
    | outOfFuel => simp [loopB, hfv]

/-- `loopB` is determined by the pointwise behavior of the body. -/
theorem loopB_congr {α : Type} (f g : α → BuildResult) (l : List α)
    (h : ∀ v ∈ l, f v = g v) : loopB f l = loopB g l := by
  induction l with
  | nil => rfl
  | cons v vs ih =>
    simp only [loopB, h v (by simp)]
    cases g v with
    | ok => rfl
    | err e => exact ih (fun w hw => h w (by simp [hw]))
    | panicked => rfl
    | outOfFuel => rfl

/-- With sufficient fuel, `build_chain_fuel` never exhausts it: the
`MAX_SUB_CA_COUNT` guard stops every path within 8 frames. -/
theorem build_chain_fuel_not_outOfFuel : ∀ (fuel : Nat) (env : Env) (req : Bytes)
    (tas : List TrustAnchor) (ints : List Bytes) (cert : Cert) (t count : Nat),
    fuel_needed cert count ≤ fuel →
    build_chain_fuel fuel env req tas ints cert t count ≠ .outOfFuel := by
  intro fuel
  induction fuel with
  | zero =>
    intro env req tas ints cert t count hneed
    exact absurd hneed (by have := fuel_needed_pos cert count; omega)
  | succ fuel ih =>
    intro env req tas ints cert t count hneed
    rw [build_chain_fuel_succ_eq]
    cases hchk : check_issuer_independent_properties cert t (used_as_ca cert.ee_or_ca)
        count req with
    | error e => simp
    | ok _ =>
      cases hca : used_as_ca cert.ee_or_ca with
      | Yes =>
        by_cases h6 : MAX_SUB_CA_COUNT ≤ count
        · rw [if_pos h6]
          simp
        · rw [if_neg h6]
          cases hanch : loop_while_non_fatal_error (check_anchor env cert) tas with
          | ok _ => simp
          | error _ =>
            apply loopB_ne_outOfFuel
            intro der _
            cases hp : parse_cert env der (.CA cert) with
            | error e => simp [consider_intermediate, hp]
            | ok p =>
              simp only [consider_intermediate, hp]
              by_cases hs : (p.data.subject != cert.data.issuer) = true
              · rw [if_pos hs]
                simp
              · rw [if_neg hs]
                by_cases hl : loop_check p.data cert.data cert.descendants = true
                · rw [if_pos hl]
                  simp
                · rw [if_neg hl]
                  cases hnc : env.check_name_constraints p.data.name_constraints cert with
                  | error e => simp [hnc]
                  | ok _ =>
                    simp only [hnc]
                    apply ih
                    have hpca := used_as_ca_of_desc_cons (parse_cert_ca_descendants hp)
                    have h7 : 7 - min count 6 ≤ fuel + 1 := by
                      simpa [fuel_needed, hca] using hneed
                    simp only [fuel_needed, hpca, next_sub_ca_count]
                    simp only [MAX_SUB_CA_COUNT] at h6
                    omega
      | No =>
        by_cases hc0 : (count == 0) = true
        · rw [if_pos hc0]
          cases hanch : loop_while_non_fatal_error (check_anchor env cert) tas with
          | ok _ => simp
          | error _ =>
            apply loopB_ne_outOfFuel
            intro der _
            cases hp : parse_cert env der (.CA cert) with
            | error e => simp [consider_intermediate, hp]
            | ok p =>
              simp only [consider_intermediate, hp]
              by_cases hs : (p.data.subject != cert.data.issuer) = true
              · rw [if_pos hs]
                simp
              · rw [if_neg hs]
                by_cases hl : loop_check p.data cert.data cert.descendants = true
                · rw [if_pos hl]
                  simp
                · rw [if_neg hl]
                  cases hnc : env.check_name_constraints p.data.name_constraints cert with
                  | error e => simp [hnc]
                  | ok _ =>
                    simp only [hnc]
                    apply ih
                    have hpca := used_as_ca_of_desc_cons (parse_cert_ca_descendants hp)
                    have h8 : 8 ≤ fuel + 1 := by
                      simpa [fuel_needed, hca] using hneed
                    simp only [fuel_needed, hpca, next_sub_ca_count]
                    omega
        · rw [if_neg hc0]
          simp

/-- `consider_intermediate` is determined by the behavior of `recurse` on
the parsed candidate at the stepped sub-CA count. -/
theorem consider_intermediate_congr (env : Env) (cert : Cert) (uc : UsedAsCA) (count : Nat)
    (r1 r2 : Cert → Nat → BuildResult) (der : Bytes)
    (h : ∀ p, parse_cert env der (.CA cert) = .ok p →
      r1 p (next_sub_ca_count uc count) = r2 p (next_sub_ca_count uc count)) :
    consider_intermediate env cert uc count r1 der =
      consider_intermediate env cert uc count r2 der := by
  cases hp : parse_cert env der (.CA cert) with
  | error e => simp [consider_intermediate, hp]
  | ok p =>
    simp only [consider_intermediate, hp]
    split_ifs with hs hl
    · rfl
    · rfl
    · cases hnc : env.check_name_constraints p.data.name_constraints cert with
      | error e => rfl
      | ok _ => exact h p hp

/-- Above the needed fuel, the result of `build_chain_fuel` no longer
depends on the fuel: the recursion genuinely terminates at depth
`fuel_needed`. -/
theorem build_chain_fuel_stable : ∀ (fuel1 fuel2 : Nat) (env : Env) (req : Bytes)
    (tas : List TrustAnchor) (ints : List Bytes) (cert : Cert) (t count : Nat),
    fuel_needed cert count ≤ fuel1 → fuel1 ≤ fuel2 →
    build_chain_fuel fuel2 env req tas ints cert t count =
      build_chain_fuel fuel1 env req tas ints cert t count := by
  intro fuel1
  induction fuel1 with
  | zero =>
    intro fuel2 env req tas ints cert t count hneed _
    exact absurd hneed (by have := fuel_needed_pos cert count; omega)
  | succ fuel1 ih =>
    intro fuel2 env req tas ints cert t count hneed h12
    obtain ⟨f2, rfl⟩ : ∃ f2, fuel2 = f2 + 1 := ⟨fuel2 - 1, by omega⟩
    rw [build_chain_fuel_succ_eq, build_chain_fuel_succ_eq]
    cases hchk : check_issuer_independent_properties cert t (used_as_ca cert.ee_or_ca)
        count req with
    | error e => rfl
    | ok _ =>
      cases hca : used_as_ca cert.ee_or_ca with
      | Yes =>
        by_cases h6 : MAX_SUB_CA_COUNT ≤ count
        · rw [if_pos h6]
        · rw [if_neg h6]
          cases hanch : loop_while_non_fatal_error (check_anchor env cert) tas with
          | ok _ => rfl
          | error _ =>
            apply loopB_congr
            intro der _
            apply consider_intermediate_congr
            intro p hp
            apply ih
            · have hpca := used_as_ca_of_desc_cons (parse_cert_ca_descendants hp)
              have h7 : 7 - min count 6 ≤ fuel1 + 1 := by
                simpa [fuel_needed, hca] using hneed
              simp only [fuel_needed, hpca, next_sub_ca_count]
              simp only [MAX_SUB_CA_COUNT] at h6
              omega
            · omega
      | No =>
        by_cases hc0 : (count == 0) = true
        · rw [if_pos hc0]
          cases hanch : loop_while_non_fatal_error (check_anchor env cert) tas with
          | ok _ => rfl
          | error _ =>
            apply loopB_congr
            intro der _
            apply consider_intermediate_congr
            intro p hp
            apply ih
            · have hpca := used_as_ca_of_desc_cons (parse_cert_ca_descendants hp)
              have h8 : 8 ≤ fuel1 + 1 := by
                simpa [fuel_needed, hca] using hneed
              simp only [fuel_needed, hpca, next_sub_ca_count]
              omega
            · omega
        · rw [if_neg hc0]

/-- The `assert_eq!(0, sub_ca_count)` of `build_chain` cannot fire when
every end-entity invocation carries a zero sub-CA count: recursive calls
always wrap the candidate as a CA. -/
theorem build_chain_fuel_no_panic : ∀ (fuel : Nat) (env : Env) (req : Bytes)
    (tas : List TrustAnchor) (ints : List Bytes) (cert : Cert) (t count : Nat),
    (used_as_ca cert.ee_or_ca = UsedAsCA.No → count = 0) →
    build_chain_fuel fuel env req tas ints cert t count ≠ .panicked := by
  intro fuel
  induction fuel with
  | zero =>
    intro env req tas ints cert t count _
    rw [show build_chain_fuel 0 env req tas ints cert t count = .outOfFuel from rfl]
    simp
  | succ fuel ih =>
    intro env req tas ints cert t count hee
    rw [build_chain_fuel_succ_eq]
    cases hchk : check_issuer_independent_properties cert t (used_as_ca cert.ee_or_ca)
        count req with
    | error e => simp
    | ok _ =>
      cases hca : used_as_ca cert.ee_or_ca with
      | Yes =>
        by_cases h6 : MAX_SUB_CA_COUNT ≤ count
        · rw [if_pos h6]
          simp
        · rw [if_neg h6]
          cases hanch : loop_while_non_fatal_error (check_anchor env cert) tas with
          | ok _ => simp
          | error _ =>
            apply loopB_ne_panicked
            intro der _
            cases hp : parse_cert env der (.CA cert) with
            | error e => simp [consider_intermediate, hp]
            | ok p =>
              simp only [consider_intermediate, hp]
              split_ifs with hs hl
              · simp
              · simp
              · cases hnc : env.check_name_constraints p.data.name_constraints cert with
                | error e => simp
                | ok _ =>
                  apply ih
                  intro hNo
                  rw [used_as_ca_of_desc_cons (parse_cert_ca_descendants hp)] at hNo
                  cases hNo
      | No =>
        have hc0 : count = 0 := hee hca
        subst hc0
        rw [if_pos (show ((0 : Nat) == 0) = true from rfl)]
        cases hanch : loop_while_non_fatal_error (check_anchor env cert) tas with
        | ok _ => simp
        | error _ =>
          apply loopB_ne_panicked
          intro der _
          cases hp : parse_cert env der (.CA cert) with
          | error e => simp [consider_intermediate, hp]
          | ok p =>
            simp only [consider_intermediate, hp]
            split_ifs with hs hl
            · simp
            · simp
            · cases hnc : env.check_name_constraints p.data.name_constraints cert with
              | error e => simp
              | ok _ =>
                apply ih
                intro hNo
                rw [used_as_ca_of_desc_cons (parse_cert_ca_descendants hp)] at hNo
                cases hNo

/-- C2: `build_chain` terminates on every input — its fuel of 8 (the
end-entity plus at most 7 visited certificates) is never exhausted and any
larger fuel computes the same result, for every collaborator environment
and intermediate graph, including self-signed cycles and mutual-issuer
pairs; a candidate whose (subject, spki) pair equals that of any
certificate already on the chain is rejected with `UnknownIssuer` without
recursing; and `sub_ca_count` increments on every CA-to-CA hop. -/
theorem c2_termination_bounded (env : Env) (req : Bytes) (tas : List TrustAnchor)
    (ints : List Bytes) (cert : Cert) (t count : Nat) (fuel : Nat) (hfuel : 8 ≤ fuel)
    (env2 : Env) (cert2 : Cert) (uc : UsedAsCA) (count2 : Nat)
    (recurse : Cert → Nat → BuildResult) (der : Bytes) (p : Cert)
    (hp : parse_cert env2 der (.CA cert2) = .ok p)
    (hsubj : p.data.subject = cert2.data.issuer)
    (hloop : loop_check p.data cert2.data cert2.descendants = true) :
    build_chain env req tas ints cert t count ≠ .outOfFuel ∧
    build_chain_fuel fuel env req tas ints cert t count =
      build_chain env req tas ints cert t count ∧
    consider_intermediate env2 cert2 uc count2 recurse der = .err .UnknownIssuer ∧
    (∀ n, next_sub_ca_count UsedAsCA.Yes n = n + 1) := by
  refine ⟨?_, ?_, ?_, fun n => rfl⟩
  · exact build_chain_fuel_not_outOfFuel 8 env req tas ints cert t count
      (fuel_needed_le_eight cert count)
  · exact build_chain_fuel_stable 8 fuel env req tas ints cert t count
      (fuel_needed_le_eight cert count) hfuel
  · simp only [consider_intermediate, hp]
    rw [if_neg (by simp [hsubj]), if_pos hloop]

/-- Witness for C2: a self-signed candidate equal to the current
certificate is rejected without recursing (the recursion argument is a
function that would panic), and the fuel facts at fuel 9. -/
theorem c2_termination_bounded_witness :
    build_chain null_env EKU_SERVER_AUTH [] [] ee_cert t_mid 0 ≠ .outOfFuel ∧
    build_chain_fuel 9 null_env EKU_SERVER_AUTH [] [] ee_cert t_mid 0 =
      build_chain null_env EKU_SERVER_AUTH [] [] ee_cert t_mid 0 ∧
    consider_intermediate self_env self_cert UsedAsCA.No 0
      (fun _ _ => BuildResult.panicked) [] = .err .UnknownIssuer ∧
    (∀ n, next_sub_ca_count UsedAsCA.Yes n = n + 1) :=
  c2_termination_bounded null_env EKU_SERVER_AUTH [] [] ee_cert t_mid 0 9 (by decide)
    self_env self_cert UsedAsCA.No 0 (fun _ _ => BuildResult.panicked) []
    (Cert.mk self_signed_data [self_signed_data]) (by decide) (by decide) (by decide)

/-- C10: no invocation of `build_chain` reachable from
`verify_is_valid_tls_server_cert` fails the `assert_eq!(0, sub_ca_count)`:
the root call passes 0 and every recursive call wraps its candidate as a
CA, so the end-entity branch only ever sees a zero count. -/
theorem c10_assert_unreachable (env : Env) (tas : List TrustAnchor) (ints : List Bytes)
    (cert : Cert) (t : Nat) :
    verify_is_valid_tls_server_cert env tas ints cert t ≠ .panicked :=
  build_chain_fuel_no_panic 8 env EKU_SERVER_AUTH tas ints cert t 0 (fun _ => rfl)

/-- `read_digit` on an ASCII digit. -/
theorem read_digit_digit (d : Nat) (rest : Bytes) (h : d ≤ 9) :
    read_digit ((48 + d) :: rest) = .ok (d, rest) := by
  simp only [read_digit]
  rw [if_neg (by simp only [Bool.or_eq_true, decide_eq_true_eq]; omega)]
  have h48 : 48 + d - 48 = d := by omega
  rw [h48]

/-- `read_digit` rejects any byte that is not an ASCII decimal. -/
theorem read_digit_non_digit (b : Nat) (rest : Bytes) (h : ¬(48 ≤ b ∧ b ≤ 57)) :
    read_digit (b :: rest) = .error .BadDERTime := by
  simp only [read_digit]
  rw [if_pos (by simp only [Bool.or_eq_true, decide_eq_true_eq]; omega)]

/-- `read_two_digits` on an encoded two-digit field enforces exactly the
inclusive `minv`/`maxv` bounds. -/
theorem read_two_digits_encode (n minv maxv : Nat) (rest : Bytes) (hn : n ≤ 99) :
    read_two_digits minv maxv (two_digits n ++ rest) =
      if n < minv ∨ maxv < n then .error .BadDERTime else .ok (n, rest) := by
  have h1 : n / 10 ≤ 9 := by omega
  have h2 : n % 10 ≤ 9 := by omega
  have hv : n / 10 * 10 + n % 10 = n := by omega
  simp only [two_digits, List.cons_append, List.nil_append, read_two_digits,
    read_digit_digit _ _ h1, read_digit_digit _ _ h2, hv]
  by_cases hc : n < minv ∨ maxv < n
  · rw [if_pos (by simp only [Bool.or_eq_true, decide_eq_true_eq]; omega), if_pos hc]
  · rw [if_neg (by simp only [Bool.or_eq_true, decide_eq_true_eq]; omega), if_neg hc]

/-- A short-form TLV with the expected tag parses to its body. -/
theorem expect_tag_tlv (t : Nat) (ht : (t % 32 == 31) = false) (L : Nat) (body rest : Bytes)
    (hL : body.length = L) (hlt : L < 128) :
    expect_tag_and_get_value t (t :: L :: (body ++ rest)) = .ok (body, rest) := by
  subst hL
  have hle : body.length ≤ (body ++ rest).length := by simp
  rw [expect_tag_and_get_value, read_tag_and_get_value.eq_def]
  simp [ht, read_value, hle, List.take_left, List.drop_left, hlt]

/-- `nested` over a short-form TLV with the expected tag runs the decoder
on the body and requires it to consume the body entirely. -/
theorem nested_tlv {α : Type} (t : Nat) (ht : (t % 32 == 31) = false) (e : Error)
    (dec : Bytes → Except Error (α × Bytes)) (L : Nat) (body rest : Bytes)
    (hL : body.length = L) (hlt : L < 128) :
    nested t e dec (t :: L :: (body ++ rest)) =
      match dec body with
      | .error err => .error err
      | .ok (r, leftover) => if leftover.isEmpty then .ok (r, rest) else .error e := by
  rw [nested, expect_tag_tlv t ht L body rest hL hlt]

/-- The UTCTime two-digit year after windowing: 19YY for 50..=99, 20YY for
0..=49. -/
def utc_windowed_year (yy : Nat) : Nat := (if 50 ≤ yy then 19 else 20) * 100 + yy

/-- The spec-modelled calendar conversion succeeds on in-range fields. -/
theorem time_from_ymdhms_utc_ok (year month day hours minutes seconds : Nat)
    (h1 : 1 ≤ month) (h2 : month ≤ 12) (h3 : 1 ≤ day)
    (h4 : day ≤ days_in_month year month) (h5 : hours ≤ 23) (h6 : minutes ≤ 59)
    (h7 : seconds ≤ 59) :
    time_from_ymdhms_utc year month day hours minutes seconds =
      .ok (utc_seconds year month day hours minutes seconds) := by
  rw [time_from_ymdhms_utc,
    if_neg (by simp only [Bool.or_eq_true, decide_eq_true_eq]; omega)]

/-- Full evaluation of `time_choice` on a UTCTime TLV with well-formed
digit fields: the decoded year is windowed, and each subsequent field is
checked against its bounds in order, ending at the `Z` terminator. -/
theorem time_choice_utc_eval (yy mm dd hh mi ss tz : Nat) (rest : Bytes)
    (hyy : yy ≤ 99) (hmm : mm ≤ 99) (hdd : dd ≤ 99) (hhh : hh ≤ 99) (hmi : mi ≤ 99)
    (hss : ss ≤ 99) :
    time_choice (23 :: 13 :: ((two_digits yy ++ two_digits mm ++ two_digits dd ++
        two_digits hh ++ two_digits mi ++ two_digits ss ++ [tz]) ++ rest)) =
      if mm < 1 ∨ 12 < mm then .error .BadDERTime
      else if dd < 1 ∨ days_in_month (utc_windowed_year yy) mm < dd then
        .error .BadDERTime
      else if 23 < hh then .error .BadDERTime
      else if 59 < mi then .error .BadDERTime
      else if 59 < ss then .error .BadDERTime
      else if tz ≠ 90 then .error .BadDERTime
      else .ok (utc_seconds (utc_windowed_year yy) mm dd hh mi ss, rest) := by
  have hlen : (two_digits yy ++ two_digits mm ++ two_digits dd ++ two_digits hh ++
      two_digits mi ++ two_digits ss ++ [tz]).length = 13 := by simp [two_digits]
  rw [time_choice]
  simp only [peek, beq_self_eq_true, if_true]
  rw [nested_tlv 23 (by decide) Error.BadDER _ 13 _ rest hlen (by omega)]
  simp only [List.append_assoc]
  rw [read_two_digits_encode yy 0 99 _ hyy, if_neg (by omega)]
  simp only [utc_windowed_year]
  rw [read_two_digits_encode mm 1 12 _ hmm]
  by_cases hM : mm < 1 ∨ 12 < mm
  · rw [if_pos hM]
    rw [if_pos hM]
  · rw [if_neg hM]
    rw [if_neg hM]
    simp only []
    rw [read_two_digits_encode dd 1 (days_in_month ((if 50 ≤ yy then 19 else 20) * 100 + yy) mm) _ hdd]
    by_cases hD : dd < 1 ∨ days_in_month ((if 50 ≤ yy then 19 else 20) * 100 + yy) mm < dd
    · rw [if_pos hD]
      rw [if_pos hD]
    · rw [if_neg hD]
      rw [if_neg hD]
      simp only []
      rw [read_two_digits_encode hh 0 23 _ hhh]
      by_cases hH : 23 < hh
      · rw [if_pos (Or.inr hH)]
        rw [if_pos hH]
      · rw [if_neg (by omega)]
        rw [if_neg hH]
        simp only []
        rw [read_two_digits_encode mi 0 59 _ hmi]
        by_cases hMi : 59 < mi
        · rw [if_pos (Or.inr hMi)]
          rw [if_pos hMi]
        · rw [if_neg (by omega)]
          rw [if_neg hMi]
          simp only []
          rw [read_two_digits_encode ss 0 59 _ hss]
          by_cases hS : 59 < ss
          · rw [if_pos (Or.inr hS)]
            rw [if_pos hS]
          · rw [if_neg (by omega)]
            rw [if_neg hS]
            simp only []
            simp only [read_byte]
            by_cases hz : tz = 90
            · rw [if_neg (show ¬((tz != 90) = true) from by simp [hz])]
              rw [if_neg (show ¬(tz ≠ 90) from fun hcontra => hcontra hz)]
              rw [time_from_ymdhms_utc_ok _ _ _ _ _ _ (by omega) (by omega) (by omega)
                (by omega) (by omega) (by omega) (by omega)]
              simp
            · rw [if_pos (show (tz != 90) = true from by simpa using hz)]
              rw [if_pos hz]

/-- Full evaluation of `time_choice` on a GeneralizedTime TLV with
well-formed digit fields: a four-digit year, then the same bounds checks
as UTCTime, ending at the `Z` terminator. -/
theorem time_choice_gen_eval (yhi ylo mm dd hh mi ss tz : Nat) (rest : Bytes)
    (hyhi : yhi ≤ 99) (hylo : ylo ≤ 99) (hmm : mm ≤ 99) (hdd : dd ≤ 99)
    (hhh : hh ≤ 99) (hmi : mi ≤ 99) (hss : ss ≤ 99) :
    time_choice (24 :: 15 :: ((two_digits yhi ++ two_digits ylo ++ two_digits mm ++
        two_digits dd ++ two_digits hh ++ two_digits mi ++ two_digits ss ++ [tz]) ++
        rest)) =
      if mm < 1 ∨ 12 < mm then .error .BadDERTime
      else if dd < 1 ∨ days_in_month (yhi * 100 + ylo) mm < dd then .error .BadDERTime
      else if 23 < hh then .error .BadDERTime
      else if 59 < mi then .error .BadDERTime
      else if 59 < ss then .error .BadDERTime
      else if tz ≠ 90 then .error .BadDERTime
      else .ok (utc_seconds (yhi * 100 + ylo) mm dd hh mi ss, rest) := by
  have hlen : (two_digits yhi ++ two_digits ylo ++ two_digits mm ++ two_digits dd ++
      two_digits hh ++ two_digits mi ++ two_digits ss ++ [tz]).length = 15 := by
    simp [two_digits]
  rw [time_choice]
  simp only [peek, (by decide : ((24 : Nat) == 23) = false), Bool.false_eq_true,
    if_false]
  rw [nested_tlv 24 (by decide) Error.BadDER _ 15 _ rest hlen (by omega)]
  simp only [List.append_assoc]
  rw [read_two_digits_encode yhi 0 99 _ hyhi, if_neg (by omega)]
  simp only []
  rw [read_two_digits_encode ylo 0 99 _ hylo, if_neg (by omega)]
  simp only []
  rw [read_two_digits_encode mm 1 12 _ hmm]
  by_cases hM : mm < 1 ∨ 12 < mm
  · rw [if_pos hM]
    rw [if_pos hM]
  · rw [if_neg hM]
    rw [if_neg hM]
    simp only []
    rw [read_two_digits_encode dd 1 (days_in_month (yhi * 100 + ylo) mm) _ hdd]
    by_cases hD : dd < 1 ∨ days_in_month (yhi * 100 + ylo) mm < dd
    · rw [if_pos hD]
      rw [if_pos hD]
    · rw [if_neg hD]
      rw [if_neg hD]
      simp only []
      rw [read_two_digits_encode hh 0 23 _ hhh]
      by_cases hH : 23 < hh
      · rw [if_pos (Or.inr hH)]
        rw [if_pos hH]
      · rw [if_neg (by omega)]
        rw [if_neg hH]
        simp only []
        rw [read_two_digits_encode mi 0 59 _ hmi]
        by_cases hMi : 59 < mi
        · rw [if_pos (Or.inr hMi)]
          rw [if_pos hMi]
        · rw [if_neg (by omega)]
          rw [if_neg hMi]
          simp only []
          rw [read_two_digits_encode ss 0 59 _ hss]
          by_cases hS : 59 < ss
          · rw [if_pos (Or.inr hS)]
            rw [if_pos hS]
          · rw [if_neg (by omega)]
            rw [if_neg hS]
            simp only []
            simp only [read_byte]
            by_cases hz : tz = 90
            · rw [if_neg (show ¬((tz != 90) = true) from by simp [hz])]
              rw [if_neg (show ¬(tz ≠ 90) from fun hcontra => hcontra hz)]
              rw [time_from_ymdhms_utc_ok _ _ _ _ _ _ (by omega) (by omega) (by omega)
                (by omega) (by omega) (by omega) (by omega)]
              simp
            · rw [if_pos (show (tz != 90) = true from by simpa using hz)]
              rw [if_pos hz]

/-- C8: `time_choice` windows the UTCTime two-digit year (50..=99 is
1900+YY, 0..=49 is 2000+YY); for both UTCTime and GeneralizedTime the
month must lie in 1..=12, the day in 1..=days-in-month of the decoded
year and month (Gregorian leap rule), hours in 0..=23, minutes and
seconds in 0..=59; every digit must be an ASCII decimal, and a final
byte other than `Z` yields `BadDERTime`. -/
theorem c8_time_choice_fields :
    (∀ yy : Nat, 50 ≤ yy → yy ≤ 99 → utc_windowed_year yy = 1900 + yy) ∧
    (∀ yy : Nat, yy ≤ 49 → utc_windowed_year yy = 2000 + yy) ∧
    (∀ (yy mm dd hh mi ss tz : Nat) (rest : Bytes), yy ≤ 99 → mm ≤ 99 → dd ≤ 99 →
      hh ≤ 99 → mi ≤ 99 → ss ≤ 99 →
      time_choice (23 :: 13 :: ((two_digits yy ++ two_digits mm ++ two_digits dd ++
          two_digits hh ++ two_digits mi ++ two_digits ss ++ [tz]) ++ rest)) =
        if mm < 1 ∨ 12 < mm then .error .BadDERTime
        else if dd < 1 ∨ days_in_month (utc_windowed_year yy) mm < dd then
          .error .BadDERTime
        else if 23 < hh then .error .BadDERTime
        else if 59 < mi then .error .BadDERTime
        else if 59 < ss then .error .BadDERTime
        else if tz ≠ 90 then .error .BadDERTime
        else .ok (utc_seconds (utc_windowed_year yy) mm dd hh mi ss, rest)) ∧
    (∀ (yhi ylo mm dd hh mi ss tz : Nat) (rest : Bytes), yhi ≤ 99 → ylo ≤ 99 →
      mm ≤ 99 → dd ≤ 99 → hh ≤ 99 → mi ≤ 99 → ss ≤ 99 →
      time_choice (24 :: 15 :: ((two_digits yhi ++ two_digits ylo ++ two_digits mm ++
          two_digits dd ++ two_digits hh ++ two_digits mi ++ two_digits ss ++ [tz]) ++
          rest)) =
        if mm < 1 ∨ 12 < mm then .error .BadDERTime
        else if dd < 1 ∨ days_in_month (yhi * 100 + ylo) mm < dd then
          .error .BadDERTime
        else if 23 < hh then .error .BadDERTime
        else if 59 < mi then .error .BadDERTime
        else if 59 < ss then .error .BadDERTime
        else if tz ≠ 90 then .error .BadDERTime
        else .ok (utc_seconds (yhi * 100 + ylo) mm dd hh mi ss, rest)) ∧
    (∀ (b : Nat) (rest : Bytes), ¬(48 ≤ b ∧ b ≤ 57) →
      read_digit (b :: rest) = .error .BadDERTime) := by
  refine ⟨?_, ?_, ?_, ?_, read_digit_non_digit⟩
  · intro yy h1 _
    rw [utc_windowed_year, if_pos h1]
  · intro yy h
    rw [utc_windowed_year, if_neg (by omega)]
  · intro yy mm dd hh mi ss tz rest hyy hmm hdd hhh hmi hss
    exact time_choice_utc_eval yy mm dd hh mi ss tz rest hyy hmm hdd hhh hmi hss
  · intro yhi ylo mm dd hh mi ss tz rest hyhi hylo hmm hdd hhh hmi hss
    exact time_choice_gen_eval yhi ylo mm dd hh mi ss tz rest hyhi hylo hmm hdd hhh hmi
      hss

/-- Witness for C8 at concrete inputs: 2016-06-01 UTCTime parses to its
windowed instant, the year 70 windows to 1970, a month of 13 is rejected,
and a non-Z terminator is rejected. -/
theorem c8_time_choice_fields_witness :
    time_choice (23 :: 13 :: ((two_digits 16 ++ two_digits 6 ++ two_digits 1 ++
        two_digits 0 ++ two_digits 0 ++ two_digits 0 ++ [90]) ++ [])) =
      .ok (utc_seconds 2016 6 1 0 0 0, []) ∧
    utc_windowed_year 70 = 1970 ∧
    time_choice (23 :: 13 :: ((two_digits 16 ++ two_digits 13 ++ two_digits 1 ++
        two_digits 0 ++ two_digits 0 ++ two_digits 0 ++ [90]) ++ [])) =
      .error .BadDERTime ∧
    time_choice (24 :: 15 :: ((two_digits 20 ++ two_digits 16 ++ two_digits 6 ++
        two_digits 1 ++ two_digits 0 ++ two_digits 0 ++ two_digits 0 ++ [88]) ++ [])) =
      .error .BadDERTime := by
  obtain ⟨h19, _, hutc, hgen, _⟩ := c8_time_choice_fields
  refine ⟨?_, ?_, ?_, ?_⟩
  · rw [hutc 16 6 1 0 0 0 90 [] (by decide) (by decide) (by decide) (by decide) (by decide)
      (by decide)]
    decide
  · rw [h19 70 (by decide) (by decide)]
  · rw [hutc 16 13 1 0 0 0 90 [] (by decide) (by decide) (by decide) (by decide) (by decide)
      (by decide)]
    decide
  · rw [hgen 20 16 6 1 0 0 0 88 [] (by decide) (by decide) (by decide) (by decide)
      (by decide) (by decide) (by decide)]
    decide

end Webpki
